import Mathlib

/-!
Verification of the content-generation-with-fallback pipeline of the
RedditAI bot (src/reddit_bot1.py), shallowly embedded in Lean.

The embedding models:
- `generate_fallback_content` and `generate_contextual_comment` as pure
  string functions, with the wall-clock time passed explicitly as a
  `DateTime` value (the Python code reads `datetime.now()`);
- `generate_content` as a function over an oracle giving the outcome of
  each remote attempt, returning the produced `GenerationResult` together
  with a trace of the remote calls and sleeps performed;
- `create_comments` as a function over a list of candidate posts plus
  oracles for generation outcomes and reply failures, returning the list
  of observable events (replies, skips, the aborting failure).
-/

/-- Wall-clock instant, the six fields `strftime "%Y-%m-%d %H:%M:%S"` reads. -/
structure DateTime where
  year : Nat
  month : Nat
  day : Nat
  hour : Nat
  minute : Nat
  second : Nat
deriving DecidableEq, Repr

/-- Last decimal digit of a natural number, as a character. -/
def dc (n : Nat) : Char := Nat.digitChar (n % 10)

/-- Character list of `strftime("%Y-%m-%d %H:%M:%S")`: zero-padded fields
separated by dashes, a space and colons. -/
def tsChars (t : DateTime) : List Char :=
  [dc (t.year / 1000), dc (t.year / 100), dc (t.year / 10), dc t.year, '-',
   dc (t.month / 10), dc t.month, '-',
   dc (t.day / 10), dc t.day, ' ',
   dc (t.hour / 10), dc t.hour, ':',
   dc (t.minute / 10), dc t.minute, ':',
   dc (t.second / 10), dc t.second]

/-- Embedding of `datetime.now().strftime("%Y-%m-%d %H:%M:%S")`. -/
def fmt (t : DateTime) : String := String.mk (tsChars t)

/-- Embedding of Python `str.lower()` (the strings involved are ASCII). -/
def pyLower (s : String) : String := String.mk (s.data.map Char.toLower)

/-- Boolean prefix test on character lists. -/
def pre : List Char → List Char → Bool
  | [], _ => true
  | _ :: _, [] => false
  | a :: as, b :: bs => a = b && pre as bs

/-- Boolean substring (contiguous) test on character lists: embedding of
the Python `needle in hay` operator on strings. -/
def subOf (n : List Char) : List Char → Bool
  | [] => pre n []
  | b :: bs => pre n (b :: bs) || subOf n bs

/-- Embedding of Python `needle in hay` for strings. -/
def strContains (needle hay : String) : Bool := subOf needle.data hay.data

/-- The post fallback template before the interpolated timestamp
(`generate_fallback_content`, `content_type == "post"`). -/
def postTemplatePre : String :=
  "\n# Today\x27s AI and Technology Update\n\nHey Reddit community! 👋\n\nHere\x27s what\x27s happening in the world of AI and technology:\n\n1. The field of artificial intelligence continues to evolve rapidly\n2. Machine learning applications are becoming more accessible\n3. Data science remains a crucial skill in today\x27s tech landscape\n\n**Want to join the discussion?**\n* What AI technologies are you most interested in?\n* What challenges have you faced in learning about AI?\n* What topics would you like to see covered in future posts?\n\n---\n*This is an automated post. Generated at: "

/-- The post fallback template after the interpolated timestamp. -/
def postTemplateSuf : String := "*\n            "

/-- The generic comment fallback template before the timestamp
(`generate_fallback_content`, comment branch, no usable title). -/
def commentTemplatePre : String :=
  "\nThank you for sharing this interesting perspective! \n\nThe intersection of technology and learning is fascinating, and discussions like these help us all grow and understand better.\n\nWould love to hear more about your experiences and thoughts on this topic.\n\n*Comment generated at: "

/-- The generic comment fallback template after the timestamp. -/
def commentTemplateSuf : String := "*\n            "

/-- The canned response for the keyword `learn`. -/
def learnResponse : String :=
  "\nGreat learning resource! Education in technology is crucial for staying current in our rapidly evolving field.\n\nSome additional resources that might be helpful:\n- Kaggle for hands-on practice\n- Documentation for fundamental concepts\n- Community forums for peer learning\n\nKeep up the great work! What learning resources have you found most helpful?\n            "

/-- The canned response for the keyword `help`. -/
def helpResponse : String :=
  "\nThanks for reaching out to the community! While I\x27m an automated response, the community here is very supportive.\n\nSome general tips:\n- Break down the problem into smaller parts\n- Check the official documentation\n- Use print statements for debugging\n- Search for similar issues in the community\n\nHope this helps point you in the right direction!\n            "

/-- The canned response for the keyword `project`. -/
def projectResponse : String :=
  "\nExciting project! Building practical applications is one of the best ways to learn and grow in this field.\n\nSome suggestions for project development:\n- Start with a clear scope\n- Document your progress\n- Test thoroughly\n- Share updates with the community\n\nLooking forward to seeing how your project develops!\n            "

/-- The default contextual response before the timestamp. -/
def defaultResponsePre : String :=
  "\nThanks for sharing this interesting topic! \n\nThese kinds of discussions are valuable for the community and help us all learn from each other\x27s experiences.\n\nLooking forward to seeing more perspectives in this thread.\n\n*Generated at: "

/-- The default contextual response after the timestamp. -/
def defaultResponseSuf : String := "*\n        "

/-- The `responses` dictionary of `generate_contextual_comment`, as the
ordered association list its Python insertion order yields. -/
def responsesList : List (String × String) :=
  [("learn", learnResponse), ("help", helpResponse), ("project", projectResponse)]

/-- Embedding of `RedditBot.generate_contextual_comment`: lower-case the
title, return the response of the first table keyword occurring in it as a
substring, else the timestamped default response. -/
def generate_contextual_comment (post_title : String) (now : DateTime) : String :=
  let title_lower := pyLower post_title
  match responsesList.find? (fun kv => subOf kv.1.data title_lower.data) with
  | some kv => kv.2
  | none => defaultResponsePre ++ fmt now ++ defaultResponseSuf

/-- Embedding of `RedditBot.generate_fallback_content`.  The Python guard
`if post_title:` is falsy both for `None` and for the empty string. -/
def generate_fallback_content (content_type : String) (post_title : Option String)
    (now : DateTime) : String :=
  let current_time := fmt now
  if content_type = "post" then
    postTemplatePre ++ current_time ++ postTemplateSuf
  else
    match post_title with
    | some t =>
      if t = "" then commentTemplatePre ++ current_time ++ commentTemplateSuf
      else generate_contextual_comment t now
    | none => commentTemplatePre ++ current_time ++ commentTemplateSuf

/-- Outcome of one remote generation attempt: `err` is any raised exception
(transport error, non-2xx status via `raise_for_status`, malformed JSON);
`ok c` is a 2xx response whose `content` field read `c` (the Python code
defaults an absent field to `""`). -/
inductive AttemptOutcome where
  | err : AttemptOutcome
  | ok : String → AttemptOutcome
deriving DecidableEq, Repr

/-- An attempt fails when it raises or when its content is empty. -/
def attemptFailed : AttemptOutcome → Bool
  | .err => true
  | .ok c => c = ""

/-- Observable side effects of the retry loop: remote calls and sleeps. -/
inductive Event where
  | call : Nat → Event
  | sleep : Nat → Event
deriving DecidableEq, Repr

/-- Origin of a generation result. -/
inductive Origin where
  | Remote : Origin
  | Fallback : Origin
deriving DecidableEq, Repr

/-- Result of `generate_content`: the text and where it came from. -/
structure GenerationResult where
  text : String
  origin : Origin
deriving DecidableEq, Repr

/-- The retry loop of `RedditBot.generate_content`, structurally recursive
on the number of remaining attempts (`fuel`), with `attempt` the index of
the next attempt.  Returns the first non-empty content obtained, if any,
plus the trace of calls and sleeps.  The sleep happens only in the
`except` branch, and only when `attempt < retries - 1`, i.e. when at least
one more attempt remains (`0 < fuel` after this one). -/
def genLoop (oracle : Nat → AttemptOutcome) (delay : Nat) :
    Nat → Nat → Option String × List Event
  | _, 0 => (none, [])
  | attempt, fuel + 1 =>
    match oracle attempt with
    | .ok c =>
      if c = "" then
        let r := genLoop oracle delay (attempt + 1) fuel
        (r.1, .call attempt :: r.2)
      else
        (some c, [.call attempt])
    | .err =>
      let r := genLoop oracle delay (attempt + 1) fuel
      (r.1, .call attempt :: (if 0 < fuel then .sleep delay :: r.2 else r.2))

/-- Embedding of `RedditBot.generate_content`: run the retry loop; on
success return the content with `Remote` origin; on exhaustion classify
the request by the substring `"post"` in the lower-cased prompt and return
the corresponding fallback with `Fallback` origin. -/
def generate_content (prompt : String) (oracle : Nat → AttemptOutcome)
    (retries delay : Nat) (now : DateTime) : GenerationResult × List Event :=
  match genLoop oracle delay 0 retries with
  | (some c, tr) => ({ text := c, origin := .Remote }, tr)
  | (none, tr) =>
    let content_type := if strContains "post" (pyLower prompt) then "post" else "comment"
    ({ text := generate_fallback_content content_type none now, origin := .Fallback }, tr)

/-- A candidate post seen by `create_comments`: its title and whether it
was already saved (processed). -/
structure CPost where
  title : String
  saved : Bool
deriving DecidableEq, Repr

/-- Observable events of one `create_comments` run: a saved post is
skipped; a reply that goes through is recorded with the text published and
whether the title-aware fallback guard fired; a reply that raises ends the
whole run (the exception is caught at function level). -/
inductive CommentEvent where
  | skipped : Nat → CommentEvent
  | replied : Nat → String → String → Bool → CommentEvent
  | failed : Nat → CommentEvent
deriving DecidableEq, Repr

/-- The fixed prefix of the comment prompt built by `create_comments`. -/
def commentPromptPre : String := "Write a helpful comment for this post title: "

/-- The guard string checked by `create_comments` on generated text. -/
def unableMarker : String := "Unable to generate content"

/-- Loop body of `RedditBot.create_comments` over the candidate posts.
`gen i` is the attempt-outcome oracle for the generation on post `i`,
`replyFails i` tells whether `post.reply` raises on post `i`.  A raising
reply aborts the remaining posts: the exception propagates to the
`except` clause wrapping the whole loop. -/
def ccLoop (gen : Nat → Nat → AttemptOutcome) (replyFails : Nat → Bool)
    (retries delay : Nat) (now : DateTime) : List CPost → Nat → List CommentEvent
  | [], _ => []
  | p :: rest, i =>
    if p.saved then
      .skipped i :: ccLoop gen replyFails retries delay now rest (i + 1)
    else
      let prompt := commentPromptPre ++ p.title
      let generated := (generate_content prompt (gen i) retries delay now).1.text
      let guard := strContains unableMarker generated
      let comment :=
        if guard then generate_fallback_content "comment" (some p.title) now else generated
      if replyFails i then
        [.failed i]
      else
        .replied i p.title comment guard :: ccLoop gen replyFails retries delay now rest (i + 1)

/-- Embedding of `RedditBot.create_comments` on a fetched batch of posts. -/
def create_comments (posts : List CPost) (gen : Nat → Nat → AttemptOutcome)
    (replyFails : Nat → Bool) (retries delay : Nat) (now : DateTime) : List CommentEvent :=
  ccLoop gen replyFails retries delay now posts 0

/-- Adjacent occurrence of the ordered pair of characters `c1, c2`. -/
def hasPair (c1 c2 : Char) : List Char → Bool
  | a :: b :: t => (a = c1 && b = c2) || hasPair c1 c2 (b :: t)
  | _ => false

/-- Number of remote calls recorded in a trace. -/
def callCount (tr : List Event) : Nat :=
  tr.countP (fun e => match e with | .call _ => true | _ => false)

/-- Boolean check that a string is rendered as `YYYY-MM-DD HH:MM:SS`. -/
def isTimestampFormat (s : String) : Bool :=
  match s.data with
  | [y1, y2, y3, y4, a1, m1, m2, a2, d1, d2, a3, h1, h2, a4, n1, n2, a5, e1, e2] =>
    y1.isDigit && y2.isDigit && y3.isDigit && y4.isDigit && a1 = '-' &&
    m1.isDigit && m2.isDigit && a2 = '-' && d1.isDigit && d2.isDigit && a3 = ' ' &&
    h1.isDigit && h2.isDigit && a4 = ':' && n1.isDigit && n2.isDigit && a5 = ':' &&
    e1.isDigit && e2.isDigit
  | _ => false

set_option maxRecDepth 8192

/-! ## Helper lemmas: strings and the substring test -/

lemma data_append (a b : String) : (a ++ b).data = a.data ++ b.data := rfl

lemma mk_data (l : List Char) : (String.mk l).data = l := rfl

lemma pyLower_data_append (a b : String) :
    (pyLower (a ++ b)).data = (pyLower a).data ++ (pyLower b).data := by
  simp [pyLower, data_append]

lemma pre_refl (n : List Char) : pre n n = true := by
  induction n with
  | nil => rfl
  | cons a as ih => simp [pre, ih]

lemma pre_append {n A : List Char} (B : List Char) (h : pre n A = true) :
    pre n (A ++ B) = true := by
  induction n generalizing A with
  | nil => rfl
  | cons a as ih =>
    cases A with
    | nil => simp [pre] at h
    | cons b bs =>
      simp only [pre, Bool.and_eq_true] at h ⊢
      exact ⟨h.1, ih h.2⟩

lemma subOf_nil_left (l : List Char) : subOf [] l = true := by
  cases l with
  | nil => rfl
  | cons b bs => simp [subOf, pre]

lemma subOf_append_left {n A : List Char} (B : List Char) (h : subOf n A = true) :
    subOf n (A ++ B) = true := by
  induction A with
  | nil =>
    cases n with
    | nil => exact subOf_nil_left B
    | cons c cs => simp [subOf, pre] at h
  | cons a as ih =>
    simp only [subOf, Bool.or_eq_true] at h ⊢
    rcases h with h | h
    · exact Or.inl (pre_append B h)
    · exact Or.inr (ih h)

lemma subOf_append_right {n B : List Char} (A : List Char) (h : subOf n B = true) :
    subOf n (A ++ B) = true := by
  induction A with
  | nil => simpa using h
  | cons a as ih =>
    simp only [List.cons_append, subOf, Bool.or_eq_true]
    exact Or.inr ih

lemma subOf_self (n : List Char) : subOf n n = true := by
  cases n with
  | nil => rfl
  | cons c cs => simp [subOf, pre_refl]

lemma subOf_sandwich (n A B : List Char) : subOf n (A ++ (n ++ B)) = true :=
  subOf_append_right A (subOf_append_left B (subOf_self n))

lemma hasPair_cons {c1 c2 : Char} {t : List Char} (a : Char) (h : hasPair c1 c2 t = true) :
    hasPair c1 c2 (a :: t) = true := by
  cases t with
  | nil => simp [hasPair] at h
  | cons b bs => simp only [hasPair, Bool.or_eq_true] at h ⊢; exact Or.inr h

lemma hasPair_of_pre {c1 c2 : Char} {r l : List Char} (h : pre (c1 :: c2 :: r) l = true) :
    hasPair c1 c2 l = true := by
  cases l with
  | nil => simp [pre] at h
  | cons a t =>
    cases t with
    | nil => simp [pre] at h
    | cons b bs =>
      simp only [pre, Bool.and_eq_true, decide_eq_true_eq] at h
      simp [hasPair, h.1, h.2.1]

lemma hasPair_of_subOf {c1 c2 : Char} {r l : List Char}
    (h : subOf (c1 :: c2 :: r) l = true) : hasPair c1 c2 l = true := by
  induction l with
  | nil => simp [subOf, pre] at h
  | cons a t ih =>
    simp only [subOf, Bool.or_eq_true] at h
    rcases h with h | h
    · exact hasPair_of_pre h
    · exact hasPair_cons a (ih h)

lemma hasPair_eq_false_of_forall_ne {c1 c2 : Char} {l : List Char}
    (h : ∀ x ∈ l, ¬ x = c1) : hasPair c1 c2 l = false := by
  induction l with
  | nil => rfl
  | cons a t ih =>
    cases t with
    | nil => rfl
    | cons b bs =>
      have ha : ¬ a = c1 := h a (by simp)
      have ht : hasPair c1 c2 (b :: bs) = false := ih (fun x hx => h x (by simp [hx]))
      simp [hasPair, ha, ht]

lemma hasPair_append_false {c1 c2 : Char} {A B : List Char}
    (hA : hasPair c1 c2 A = false) (hB : hasPair c1 c2 B = false)
    (hbd : ¬ (A.getLast? = some c1 ∧ B.head? = some c2)) :
    hasPair c1 c2 (A ++ B) = false := by
  induction A with
  | nil => simpa using hB
  | cons a as ih =>
    cases as with
    | nil =>
      cases B with
      | nil => rfl
      | cons b bs =>
        have hab : ¬ (a = c1 ∧ b = c2) := by
          intro hc
          exact hbd ⟨by simp [hc.1], by simp [hc.2]⟩
        have hb' : (decide (a = c1) && decide (b = c2)) = false := by
          rcases Decidable.em (a = c1) with h1 | h1
          · rcases Decidable.em (b = c2) with h2 | h2
            · exact absurd ⟨h1, h2⟩ hab
            · simp [h2]
          · simp [h1]
        simp [hasPair, hb', hB]
    | cons a' t =>
      simp only [hasPair, Bool.or_eq_false_iff] at hA
      have hA1 := hA.1
      have hA2 := hA.2
      have hlast : (a' :: t).getLast? = (a :: a' :: t).getLast? := by
        simp [List.getLast?_cons_cons]
      have := ih hA2 (by rw [hlast]; exact hbd)
      simpa [hasPair, hA1] using this

/-! ## Helper lemmas: the retry loop -/

lemma callCount_nil : callCount [] = 0 := rfl

lemma callCount_call (i : Nat) (tr : List Event) :
    callCount (Event.call i :: tr) = callCount tr + 1 := by
  simp [callCount, List.countP_cons]

lemma callCount_sleep (d : Nat) (tr : List Event) :
    callCount (Event.sleep d :: tr) = callCount tr := by
  simp [callCount, List.countP_cons]

lemma genLoop_fst_none_iff (oracle : Nat → AttemptOutcome) (delay : Nat) :
    ∀ (fuel a : Nat), (genLoop oracle delay a fuel).1 = none ↔
      ∀ j < fuel, attemptFailed (oracle (a + j)) = true := by
  intro fuel
  induction fuel with
  | zero => intro a; simp [genLoop]
  | succ f ih =>
    intro a
    have shift : (∀ j < f, attemptFailed (oracle (a + 1 + j)) = true) ∧
        attemptFailed (oracle a) = true ↔
        ∀ j < f + 1, attemptFailed (oracle (a + j)) = true := by
      constructor
      · rintro ⟨hs, h0⟩ j hj
        cases j with
        | zero => simpa using h0
        | succ j' =>
          have := hs j' (by omega)
          simpa [Nat.add_assoc, Nat.add_comm 1 j'] using this
      · intro h
        refine ⟨fun j hj => ?_, by simpa using h 0 (by omega)⟩
        have := h (j + 1) (by omega)
        simpa [Nat.add_assoc, Nat.add_comm 1 j] using this
    cases ho : oracle a with
    | err =>
      simp only [genLoop, ho]
      rw [ih (a + 1)]
      rw [← shift]
      simp [attemptFailed, ho]
    | ok c =>
      by_cases hc : c = ""
      · subst hc
        simp only [genLoop, ho, if_true]
        rw [ih (a + 1)]
        rw [← shift]
        simp [attemptFailed, ho]
      · simp only [genLoop, ho, if_neg hc]
        constructor
        · intro h; simp at h
        · intro h
          have := h 0 (by omega)
          simp [attemptFailed, ho] at this
          exact absurd this hc

lemma genLoop_fst_some_of_first (oracle : Nat → AttemptOutcome) (delay : Nat) :
    ∀ (k fuel a : Nat) (c : String),
      (∀ j < k, attemptFailed (oracle (a + j)) = true) → k < fuel →
      oracle (a + k) = .ok c → c ≠ "" →
      (genLoop oracle delay a fuel).1 = some c := by
  intro k
  induction k with
  | zero =>
    intro fuel a c _ hk hc hne
    obtain ⟨f, rfl⟩ : ∃ f, fuel = f + 1 := ⟨fuel - 1, by omega⟩
    simp only [Nat.add_zero] at hc
    simp [genLoop, hc, hne]
  | succ k' ih =>
    intro fuel a c hfail hk hc hne
    obtain ⟨f, rfl⟩ : ∃ f, fuel = f + 1 := ⟨fuel - 1, by omega⟩
    have h0 : attemptFailed (oracle a) = true := by simpa using hfail 0 (by omega)
    have hfail' : ∀ j < k', attemptFailed (oracle (a + 1 + j)) = true := by
      intro j hj
      have := hfail (j + 1) (by omega)
      simpa [Nat.add_assoc, Nat.add_comm 1 j] using this
    have hc' : oracle (a + 1 + k') = .ok c := by
      rw [show a + 1 + k' = a + (k' + 1) by omega]
      exact hc
    have hrec := ih f (a + 1) c hfail' (by omega) hc' hne
    cases ho : oracle a with
    | err => simpa [genLoop, ho] using hrec
    | ok c0 =>
      have hc0 : c0 = "" := by simpa [attemptFailed, ho] using h0
      subst hc0
      simpa [genLoop, ho] using hrec

lemma genLoop_fst_some_inv (oracle : Nat → AttemptOutcome) (delay : Nat) :
    ∀ (fuel a : Nat) (c : String), (genLoop oracle delay a fuel).1 = some c →
      ∃ k < fuel, oracle (a + k) = .ok c ∧ c ≠ "" ∧
        ∀ j < k, attemptFailed (oracle (a + j)) = true := by
  intro fuel
  induction fuel with
  | zero => intro a c h; simp [genLoop] at h
  | succ f ih =>
    intro a c h
    cases ho : oracle a with
    | err =>
      simp only [genLoop, ho] at h
      obtain ⟨k, hk, hok, hne, hfail⟩ := ih (a + 1) c h
      refine ⟨k + 1, by omega, ?_, hne, ?_⟩
      · rw [show a + (k + 1) = a + 1 + k by omega]; exact hok
      · intro j hj
        cases j with
        | zero => simp [attemptFailed, ho]
        | succ j' =>
          have := hfail j' (by omega)
          simpa [Nat.add_assoc, Nat.add_comm 1 j'] using this
    | ok c0 =>
      by_cases hc0 : c0 = ""
      · subst hc0
        simp only [genLoop, ho, if_true] at h
        obtain ⟨k, hk, hok, hne, hfail⟩ := ih (a + 1) c h
        refine ⟨k + 1, by omega, ?_, hne, ?_⟩
        · rw [show a + (k + 1) = a + 1 + k by omega]; exact hok
        · intro j hj
          cases j with
          | zero => simp [attemptFailed, ho]
          | succ j' =>
            have := hfail j' (by omega)
            simpa [Nat.add_assoc, Nat.add_comm 1 j'] using this
      · simp only [genLoop, ho, if_neg hc0] at h
        have : c0 = c := by simpa using h
        subst this
        exact ⟨0, by omega, by simpa using ho, hc0, by omega⟩

lemma genLoop_callCount_le (oracle : Nat → AttemptOutcome) (delay : Nat) :
    ∀ (fuel a : Nat), callCount (genLoop oracle delay a fuel).2 ≤ fuel := by
  intro fuel
  induction fuel with
  | zero => intro a; simp [genLoop, callCount_nil]
  | succ f ih =>
    intro a
    cases ho : oracle a with
    | err =>
      by_cases hf : 0 < f
      · simp only [genLoop, ho, if_pos hf, callCount_call, callCount_sleep]
        have := ih (a + 1)
        omega
      · simp only [genLoop, ho, if_neg hf, callCount_call]
        have := ih (a + 1)
        omega
    | ok c =>
      by_cases hc : c = ""
      · subst hc
        simp only [genLoop, ho, if_true, callCount_call]
        have := ih (a + 1)
        omega
      · simp only [genLoop, ho, if_neg hc]
        simp [callCount_call, callCount_nil]

lemma genLoop_trace_first_success (oracle : Nat → AttemptOutcome) (delay : Nat) :
    ∀ (k fuel a : Nat) (c : String),
      (∀ j < k, attemptFailed (oracle (a + j)) = true) → k < fuel →
      oracle (a + k) = .ok c → c ≠ "" →
      callCount (genLoop oracle delay a fuel).2 = k + 1 ∧
        ∀ j, Event.call j ∈ (genLoop oracle delay a fuel).2 → j ≤ a + k := by
  intro k
  induction k with
  | zero =>
    intro fuel a c _ hk hc hne
    obtain ⟨f, rfl⟩ : ∃ f, fuel = f + 1 := ⟨fuel - 1, by omega⟩
    simp only [Nat.add_zero] at hc
    simp [genLoop, hc, hne, callCount_call, callCount_nil]
  | succ k' ih =>
    intro fuel a c hfail hk hc hne
    obtain ⟨f, rfl⟩ : ∃ f, fuel = f + 1 := ⟨fuel - 1, by omega⟩
    have h0 : attemptFailed (oracle a) = true := by simpa using hfail 0 (by omega)
    have hfail' : ∀ j < k', attemptFailed (oracle (a + 1 + j)) = true := by
      intro j hj
      have := hfail (j + 1) (by omega)
      simpa [Nat.add_assoc, Nat.add_comm 1 j] using this
    have hc' : oracle (a + 1 + k') = .ok c := by
      rw [show a + 1 + k' = a + (k' + 1) by omega]
      exact hc
    obtain ⟨ihc, ihm⟩ := ih f (a + 1) c hfail' (by omega) hc' hne
    have hak : a + 1 + k' = a + (k' + 1) := by omega
    cases ho : oracle a with
    | err =>
      by_cases hf : 0 < f
      · simp only [genLoop, ho, if_pos hf, callCount_call, callCount_sleep]
        refine ⟨by omega, ?_⟩
        intro j hj
        simp only [List.mem_cons] at hj
        rcases hj with hj | hj | hj
        · cases hj; omega
        · cases hj
        · have := ihm j hj; omega
      · simp only [genLoop, ho, if_neg hf, callCount_call]
        refine ⟨by omega, ?_⟩
        intro j hj
        simp only [List.mem_cons] at hj
        rcases hj with hj | hj
        · cases hj; omega
        · have := ihm j hj; omega
    | ok c0 =>
      have hc0 : c0 = "" := by simpa [attemptFailed, ho] using h0
      subst hc0
      simp only [genLoop, ho, if_true, callCount_call]
      refine ⟨by omega, ?_⟩
      intro j hj
      simp only [List.mem_cons] at hj
      rcases hj with hj | hj
      · cases hj; omega
      · have := ihm j hj; omega

lemma genLoop_trace_head (oracle : Nat → AttemptOutcome) (delay : Nat)
    (fuel a : Nat) (hf : 0 < fuel) :
    ∃ t, (genLoop oracle delay a fuel).2 = Event.call a :: t := by
  obtain ⟨f, rfl⟩ : ∃ f, fuel = f + 1 := ⟨fuel - 1, by omega⟩
  cases ho : oracle a with
  | err =>
    by_cases hff : 0 < f
    · exact ⟨Event.sleep delay :: (genLoop oracle delay (a + 1) f).2,
        by simp [genLoop, ho, hff]⟩
    · exact ⟨(genLoop oracle delay (a + 1) f).2, by simp [genLoop, ho, hff]⟩
  | ok c =>
    by_cases hc : c = ""
    · subst hc
      exact ⟨(genLoop oracle delay (a + 1) f).2, by simp [genLoop, ho]⟩
    · exact ⟨[], by simp [genLoop, ho, hc]⟩

lemma genLoop_err_sleep (oracle : Nat → AttemptOutcome) (delay : Nat) :
    ∀ (k fuel a : Nat),
      (∀ j < k, attemptFailed (oracle (a + j)) = true) → k + 1 < fuel →
      oracle (a + k) = .err →
      ∃ p s, (genLoop oracle delay a fuel).2 =
        p ++ Event.call (a + k) :: Event.sleep delay :: s := by
  intro k
  induction k with
  | zero =>
    intro fuel a _ hk he
    obtain ⟨f, rfl⟩ : ∃ f, fuel = f + 1 := ⟨fuel - 1, by omega⟩
    have hf : 0 < f := by omega
    simp only [Nat.add_zero] at he
    exact ⟨[], (genLoop oracle delay (a + 1) f).2, by simp [genLoop, he, hf]⟩
  | succ k' ih =>
    intro fuel a hfail hk he
    obtain ⟨f, rfl⟩ : ∃ f, fuel = f + 1 := ⟨fuel - 1, by omega⟩
    have h0 : attemptFailed (oracle a) = true := by simpa using hfail 0 (by omega)
    have hfail' : ∀ j < k', attemptFailed (oracle (a + 1 + j)) = true := by
      intro j hj
      have := hfail (j + 1) (by omega)
      simpa [Nat.add_assoc, Nat.add_comm 1 j] using this
    have he' : oracle (a + 1 + k') = .err := by
      rw [show a + 1 + k' = a + (k' + 1) by omega]
      exact he
    obtain ⟨p, s, hps⟩ := ih f (a + 1) hfail' (by omega) he'
    have hak : a + 1 + k' = a + (k' + 1) := by omega
    rw [hak] at hps
    cases ho : oracle a with
    | err =>
      have hf : 0 < f := by omega
      refine ⟨Event.call a :: Event.sleep delay :: p, s, ?_⟩
      simp [genLoop, ho, hf, hps]
    | ok c0 =>
      have hc0 : c0 = "" := by simpa [attemptFailed, ho] using h0
      subst hc0
      refine ⟨Event.call a :: p, s, ?_⟩
      simp [genLoop, ho, hps]

lemma genLoop_empty_next_call (oracle : Nat → AttemptOutcome) (delay : Nat) :
    ∀ (k fuel a : Nat),
      (∀ j < k, attemptFailed (oracle (a + j)) = true) → k + 1 < fuel →
      oracle (a + k) = .ok "" →
      ∃ p s, (genLoop oracle delay a fuel).2 =
        p ++ Event.call (a + k) :: Event.call (a + k + 1) :: s := by
  intro k
  induction k with
  | zero =>
    intro fuel a _ hk he
    obtain ⟨f, rfl⟩ : ∃ f, fuel = f + 1 := ⟨fuel - 1, by omega⟩
    have hf : 0 < f := by omega
    simp only [Nat.add_zero] at he
    obtain ⟨t, ht⟩ := genLoop_trace_head oracle delay f (a + 1) hf
    exact ⟨[], t, by simp [genLoop, he, ht]⟩
  | succ k' ih =>
    intro fuel a hfail hk he
    obtain ⟨f, rfl⟩ : ∃ f, fuel = f + 1 := ⟨fuel - 1, by omega⟩
    have h0 : attemptFailed (oracle a) = true := by simpa using hfail 0 (by omega)
    have hfail' : ∀ j < k', attemptFailed (oracle (a + 1 + j)) = true := by
      intro j hj
      have := hfail (j + 1) (by omega)
      simpa [Nat.add_assoc, Nat.add_comm 1 j] using this
    have he' : oracle (a + 1 + k') = .ok "" := by
      rw [show a + 1 + k' = a + (k' + 1) by omega]
      exact he
    obtain ⟨p, s, hps⟩ := ih f (a + 1) hfail' (by omega) he'
    have hak : a + 1 + k' = a + (k' + 1) := by omega
    rw [hak] at hps
    cases ho : oracle a with
    | err =>
      by_cases hf : 0 < f
      · refine ⟨Event.call a :: Event.sleep delay :: p, s, ?_⟩
        simp [genLoop, ho, hf, hps]
      · omega
    | ok c0 =>
      have hc0 : c0 = "" := by simpa [attemptFailed, ho] using h0
      subst hc0
      refine ⟨Event.call a :: p, s, ?_⟩
      simp [genLoop, ho, hps]

lemma generate_content_trace (prompt : String) (oracle : Nat → AttemptOutcome)
    (retries delay : Nat) (now : DateTime) :
    (generate_content prompt oracle retries delay now).2 =
      (genLoop oracle delay 0 retries).2 := by
  rcases hg : genLoop oracle delay 0 retries with ⟨o, tr⟩
  cases o <;> simp [generate_content, hg]

/-! ## Helper lemmas: timestamps and templates -/

lemma dc_isDigit (n : Nat) : (dc n).isDigit = true := by
  have hlt : n % 10 < 10 := Nat.mod_lt _ (by omega)
  have hall : ∀ m < 10, (Nat.digitChar m).isDigit = true := by decide
  exact hall (n % 10) hlt

lemma dc_ne_U (n : Nat) : ¬ dc n = 'U' := by
  have hlt : n % 10 < 10 := Nat.mod_lt _ (by omega)
  have hall : ∀ m < 10, ¬ Nat.digitChar m = 'U' := by decide
  exact hall (n % 10) hlt

lemma fmt_isTimestampFormat (t : DateTime) : isTimestampFormat (fmt t) = true := by
  simp [isTimestampFormat, fmt, tsChars, dc_isDigit]

lemma u_not_mem_tsChars (t : DateTime) : ∀ x ∈ tsChars t, ¬ x = 'U' := by
  intro x hx
  simp only [tsChars, List.mem_cons, List.not_mem_nil, or_false] at hx
  rcases hx with h | h | h | h | h | h | h | h | h | h | h | h | h | h | h | h | h | h | h <;>
    subst h
  all_goals first
    | exact dc_ne_U _
    | decide

lemma tsChars_getLast? (t : DateTime) : (tsChars t).getLast? = some (dc t.second) := rfl

lemma tsChars_ne_nil (t : DateTime) : tsChars t ≠ [] := by simp [tsChars]

lemma hasPair_Un_postPre : hasPair 'U' 'n' postTemplatePre.data = false := by decide

lemma hasPair_Un_postSuf : hasPair 'U' 'n' postTemplateSuf.data = false := by decide

lemma postPre_getLast? : postTemplatePre.data.getLast? = some ' ' := by decide

lemma u_not_mem_postSuf : ∀ x ∈ postTemplateSuf.data, ¬ x = 'U' := by decide

/-- The guard string of `create_comments` never occurs in the post fallback
text, whatever the timestamp. -/
lemma marker_not_in_post_fallback (t : DateTime) :
    strContains unableMarker (postTemplatePre ++ fmt t ++ postTemplateSuf) = false := by
  cases h : strContains unableMarker (postTemplatePre ++ fmt t ++ postTemplateSuf) with
  | false => rfl
  | true => ?_
  exfalso
  have hdata : (postTemplatePre ++ fmt t ++ postTemplateSuf).data =
      (postTemplatePre.data ++ tsChars t) ++ postTemplateSuf.data := by
    rw [data_append, data_append]; rfl
  have hsub : subOf ('U' :: 'n' :: "able to generate content".data)
      ((postTemplatePre.data ++ tsChars t) ++ postTemplateSuf.data) = true := by
    have : unableMarker.data = 'U' :: 'n' :: "able to generate content".data := rfl
    rw [strContains, hdata, this] at h
    exact h
  have hpair := hasPair_of_subOf hsub
  have hinner : hasPair 'U' 'n' (postTemplatePre.data ++ tsChars t) = false := by
    refine hasPair_append_false hasPair_Un_postPre
      (hasPair_eq_false_of_forall_ne (u_not_mem_tsChars t)) ?_
    rw [postPre_getLast?]
    rintro ⟨h1, -⟩
    simp at h1
  have houter : hasPair 'U' 'n'
      ((postTemplatePre.data ++ tsChars t) ++ postTemplateSuf.data) = false := by
    refine hasPair_append_false hinner hasPair_Un_postSuf ?_
    rw [List.getLast?_append_of_ne_nil _ (tsChars_ne_nil t), tsChars_getLast?]
    rintro ⟨h1, -⟩
    have := dc_ne_U t.second
    simp at h1
    exact this h1
  rw [hpair] at houter
  simp at houter

/-- The selector of `generate_contextual_comment` as a chain of substring
tests, in the declared table order. -/
lemma contextual_characterization (hint : String) (now : DateTime) :
    generate_contextual_comment hint now =
      (if strContains "learn" (pyLower hint) then learnResponse
       else if strContains "help" (pyLower hint) then helpResponse
       else if strContains "project" (pyLower hint) then projectResponse
       else defaultResponsePre ++ fmt now ++ defaultResponseSuf) := by
  simp only [generate_contextual_comment, responsesList]
  by_cases h1 : subOf "learn".data (pyLower hint).data = true
  · rw [List.find?_cons_of_pos _ (by exact h1)]
    simp [strContains, h1]
  · rw [List.find?_cons_of_neg _ (by simpa using h1)]
    by_cases h2 : subOf "help".data (pyLower hint).data = true
    · rw [List.find?_cons_of_pos _ (by exact h2)]
      simp [strContains, h1, h2]
    · rw [List.find?_cons_of_neg _ (by simpa using h2)]
      by_cases h3 : subOf "project".data (pyLower hint).data = true
      · rw [List.find?_cons_of_pos _ (by exact h3)]
        simp [strContains, h1, h2, h3]
      · rw [List.find?_cons_of_neg _ (by simpa using h3)]
        simp [strContains, h1, h2, h3]

lemma post_fallback_ne_empty (t : DateTime) :
    postTemplatePre ++ fmt t ++ postTemplateSuf ≠ "" := by
  intro h
  have hlen := congrArg String.length h
  rw [String.length_append, String.length_append] at hlen
  have hp : 0 < postTemplatePre.length := by decide
  rw [show ("" : String).length = 0 from rfl] at hlen
  omega

lemma comment_fallback_ne_empty (t : DateTime) :
    commentTemplatePre ++ fmt t ++ commentTemplateSuf ≠ "" := by
  intro h
  have hlen := congrArg String.length h
  rw [String.length_append, String.length_append] at hlen
  have hp : 0 < commentTemplatePre.length := by decide
  rw [show ("" : String).length = 0 from rfl] at hlen
  omega

/-- The prompt `create_comments` builds always contains `post`. -/
lemma prompt_contains_post (title : String) :
    strContains "post" (pyLower (commentPromptPre ++ title)) = true := by
  rw [strContains, pyLower_data_append]
  refine subOf_append_left _ ?_
  decide

lemma generate_content_of_none (prompt : String) (oracle : Nat → AttemptOutcome)
    (retries delay : Nat) (now : DateTime)
    (h : (genLoop oracle delay 0 retries).1 = none) :
    (generate_content prompt oracle retries delay now).1 =
      { text := generate_fallback_content
          (if strContains "post" (pyLower prompt) then "post" else "comment") none now,
        origin := Origin.Fallback } := by
  rcases hg : genLoop oracle delay 0 retries with ⟨o, tr⟩
  rw [hg] at h
  cases o with
  | none => simp [generate_content, hg]
  | some c => simp at h

lemma generate_content_of_some (prompt : String) (oracle : Nat → AttemptOutcome)
    (retries delay : Nat) (now : DateTime) (c : String)
    (h : (genLoop oracle delay 0 retries).1 = some c) :
    (generate_content prompt oracle retries delay now).1 =
      { text := c, origin := Origin.Remote } := by
  rcases hg : genLoop oracle delay 0 retries with ⟨o, tr⟩
  rw [hg] at h
  cases o with
  | none => simp at h
  | some c0 =>
    have : c0 = c := by simpa using h
    subst this
    simp [generate_content, hg]

/-! ## Claim theorems -/

/-- Claim C1: for every prompt, `generate_content` returns a result of
`Fallback` origin iff every attempt up to the retry bound failed, of
`Remote` origin iff some attempt up to the bound succeeded (non-empty
content after a 2xx response), and in the latter case the returned text is
exactly the content of the first succeeding attempt. -/
theorem C1_generate_origin_iff (prompt : String) (oracle : Nat → AttemptOutcome)
    (retries delay : Nat) (now : DateTime) :
    ((generate_content prompt oracle retries delay now).1.origin = Origin.Fallback ↔
      ∀ i < retries, attemptFailed (oracle i) = true) ∧
    ((generate_content prompt oracle retries delay now).1.origin = Origin.Remote ↔
      ∃ i < retries, ∃ c, oracle i = AttemptOutcome.ok c ∧ c ≠ "") ∧
    (∀ i < retries, ∀ c, oracle i = AttemptOutcome.ok c → c ≠ "" →
      (∀ j < i, attemptFailed (oracle j) = true) →
      (generate_content prompt oracle retries delay now).1.text = c) := by
  rcases hg : genLoop oracle delay 0 retries with ⟨o, tr⟩
  cases o with
  | none =>
    have hres := generate_content_of_none prompt oracle retries delay now (by rw [hg])
    have hall : ∀ i < retries, attemptFailed (oracle i) = true := by
      have := (genLoop_fst_none_iff oracle delay retries 0).mp (by rw [hg])
      simpa using this
    refine ⟨⟨fun _ => hall, fun _ => by rw [hres]⟩, ⟨?_, ?_⟩, ?_⟩
    · intro habs
      rw [hres] at habs
      simp at habs
    · rintro ⟨i, hi, c, hoc, hne⟩
      have := hall i hi
      rw [hoc] at this
      simp [attemptFailed] at this
      exact absurd this hne
    · intro i hi c hoc hne _
      have := hall i hi
      rw [hoc] at this
      simp [attemptFailed] at this
      exact absurd this hne
  | some c =>
    have hres := generate_content_of_some prompt oracle retries delay now c (by rw [hg])
    obtain ⟨k, hk, hok, hne, hfail⟩ :=
      genLoop_fst_some_inv oracle delay retries 0 c (by rw [hg])
    simp only [Nat.zero_add] at hok hfail
    refine ⟨⟨?_, ?_⟩, ⟨fun _ => ⟨k, hk, c, hok, hne⟩, fun _ => by rw [hres]⟩, ?_⟩
    · intro habs
      rw [hres] at habs
      simp at habs
    · intro hall
      have := hall k hk
      rw [hok] at this
      simp [attemptFailed] at this
      exact absurd this hne
    · intro i hi c' hoc' hne' hprev
      have hfst : (genLoop oracle delay 0 retries).1 = some c' := by
        refine genLoop_fst_some_of_first oracle delay i retries 0 c' ?_ hi (by simpa using hoc') hne'
        intro j hj
        simpa using hprev j hj
      rw [hg] at hfst
      have : c = c' := by simpa using hfst
      subst this
      rw [hres]

/-- Claim C1 witness: with an oracle failing at attempt 0 and succeeding at
attempt 1, the returned text is that succeeding content. -/
theorem C1_generate_origin_iff_witness :
    (generate_content "p" (fun i => if i = 0 then AttemptOutcome.err else AttemptOutcome.ok "hello")
      3 5 ⟨2024, 1, 2, 3, 4, 5⟩).1.text = "hello" :=
  (C1_generate_origin_iff "p"
      (fun i => if i = 0 then AttemptOutcome.err else AttemptOutcome.ok "hello")
      3 5 ⟨2024, 1, 2, 3, 4, 5⟩).2.2 1 (by decide) "hello" (by decide) (by decide)
    (by decide)

/-- Claim C3: with at least one configured attempt, `generate_content`
performs at most `retries` remote calls, and when the first success is at
attempt `i` it performs exactly `i + 1` calls and no call after attempt
`i`. -/
theorem C3_retry_count (prompt : String) (oracle : Nat → AttemptOutcome)
    (retries delay : Nat) (now : DateTime) (_hr : 1 ≤ retries) :
    callCount (generate_content prompt oracle retries delay now).2 ≤ retries ∧
    (∀ i < retries, (∀ j < i, attemptFailed (oracle j) = true) →
      ∀ c, oracle i = AttemptOutcome.ok c → c ≠ "" →
      callCount (generate_content prompt oracle retries delay now).2 = i + 1 ∧
      ∀ j, Event.call j ∈ (generate_content prompt oracle retries delay now).2 → j ≤ i) := by
  rw [generate_content_trace]
  refine ⟨genLoop_callCount_le oracle delay retries 0, ?_⟩
  intro i hi hprev c hoc hne
  have := genLoop_trace_first_success oracle delay i retries 0 c
    (by intro j hj; simpa using hprev j hj) hi (by simpa using hoc) hne
  simpa using this

/-- Claim C3 witness: an oracle succeeding immediately makes exactly one
call out of an allowed three. -/
theorem C3_retry_count_witness :
    callCount (generate_content "p" (fun _ => AttemptOutcome.ok "hi") 3 5
      ⟨2024, 1, 2, 3, 4, 5⟩).2 = 1 :=
  ((C3_retry_count "p" (fun _ => AttemptOutcome.ok "hi") 3 5 ⟨2024, 1, 2, 3, 4, 5⟩
      (by decide)).2 0 (by decide) (by omega) "hi" rfl (by decide)).1

/-- Claim C5: whatever way every attempt fails (exception or empty
content), `generate_content` returns a non-empty fallback result rather
than signaling an error: it is a total function into `GenerationResult`,
and on total failure the result is the classified fallback text with
`Fallback` origin. -/
theorem C5_never_raises (prompt : String) (oracle : Nat → AttemptOutcome)
    (retries delay : Nat) (now : DateTime)
    (hfail : ∀ i < retries, attemptFailed (oracle i) = true) :
    (generate_content prompt oracle retries delay now).1 =
      { text := generate_fallback_content
          (if strContains "post" (pyLower prompt) then "post" else "comment") none now,
        origin := Origin.Fallback } ∧
    (generate_content prompt oracle retries delay now).1.text ≠ "" := by
  have hnone : (genLoop oracle delay 0 retries).1 = none := by
    rw [genLoop_fst_none_iff]
    intro j hj
    simpa using hfail j hj
  have hres := generate_content_of_none prompt oracle retries delay now hnone
  refine ⟨hres, ?_⟩
  rw [hres]
  by_cases hp : strContains "post" (pyLower prompt) = true
  · simp only [hp, if_true]
    simpa [generate_fallback_content] using post_fallback_ne_empty now
  · simp only [Bool.not_eq_true] at hp
    simp only [hp, Bool.false_eq_true, if_false]
    simpa [generate_fallback_content] using comment_fallback_ne_empty now

/-- Claim C5 witness: applied with two exception-failing attempts. -/
theorem C5_never_raises_witness :
    (generate_content "p" (fun _ => AttemptOutcome.err) 2 5 ⟨2024, 1, 2, 3, 4, 5⟩).1 =
      { text := generate_fallback_content
          (if strContains "post" (pyLower "p") then "post" else "comment") none
          ⟨2024, 1, 2, 3, 4, 5⟩,
        origin := Origin.Fallback } ∧
    (generate_content "p" (fun _ => AttemptOutcome.err) 2 5 ⟨2024, 1, 2, 3, 4, 5⟩).1.text ≠ "" :=
  C5_never_raises "p" (fun _ => AttemptOutcome.err) 2 5 ⟨2024, 1, 2, 3, 4, 5⟩ (by decide)

/-- Claim C6 counterexample: attempt 0 fails because the response content
is empty, two further attempts remain, yet the trace shows the next call
happening with no sleep in between (the `time.sleep` sits in the `except`
branch, which an empty-content attempt never enters). -/
theorem C6_counterexample :
    attemptFailed ((fun i => if i = 0 then AttemptOutcome.ok "" else AttemptOutcome.ok "hello") 0)
      = true ∧
    (generate_content "p"
      (fun i => if i = 0 then AttemptOutcome.ok "" else AttemptOutcome.ok "hello")
      3 5 ⟨2024, 1, 2, 3, 4, 5⟩).2 = [Event.call 0, Event.call 1] ∧
    Event.sleep 5 ∉ (generate_content "p"
      (fun i => if i = 0 then AttemptOutcome.ok "" else AttemptOutcome.ok "hello")
      3 5 ⟨2024, 1, 2, 3, 4, 5⟩).2 := by
  refine ⟨by decide, by decide, by decide⟩

/-- Claim C6 as amended: the suspension happens only for attempts that
fail by raising (transport error or non-success status).  After such an
attempt with further attempts remaining the trace shows the call followed
immediately by a sleep of `delay`; after an attempt whose response content
is empty or absent, the next call follows immediately with no sleep. -/
theorem C6_sleep_on_err_only (prompt : String) (oracle : Nat → AttemptOutcome)
    (retries delay : Nat) (now : DateTime) (k : Nat)
    (hprev : ∀ j < k, attemptFailed (oracle j) = true) (hk : k + 1 < retries) :
    (oracle k = AttemptOutcome.err →
      ∃ p s, (generate_content prompt oracle retries delay now).2 =
        p ++ Event.call k :: Event.sleep delay :: s) ∧
    (oracle k = AttemptOutcome.ok "" →
      ∃ p s, (generate_content prompt oracle retries delay now).2 =
        p ++ Event.call k :: Event.call (k + 1) :: s) := by
  rw [generate_content_trace]
  constructor
  · intro he
    have := genLoop_err_sleep oracle delay k retries 0
      (by intro j hj; simpa using hprev j hj) hk (by simpa using he)
    simpa using this
  · intro he
    have := genLoop_empty_next_call oracle delay k retries 0
      (by intro j hj; simpa using hprev j hj) hk (by simpa using he)
    simpa using this

/-- Claim C6 amended witness: a raising first attempt out of two is
followed by a sleep of the configured delay. -/
theorem C6_sleep_on_err_only_witness :
    ∃ p s, (generate_content "p" (fun _ => AttemptOutcome.err) 2 7 ⟨2024, 1, 2, 3, 4, 5⟩).2 =
      p ++ Event.call 0 :: Event.sleep 7 :: s :=
  (C6_sleep_on_err_only "p" (fun _ => AttemptOutcome.err) 2 7 ⟨2024, 1, 2, 3, 4, 5⟩ 0
    (by omega) (by omega)).1 rfl

/-- Claim C7: when every attempt fails, the request kind is classified
purely by whether the lower-cased prompt contains the substring `post`:
if it does the post fallback template is returned, otherwise the generic
comment fallback template, in both cases with `Fallback` origin. -/
theorem C7_fallback_classification (prompt : String) (oracle : Nat → AttemptOutcome)
    (retries delay : Nat) (now : DateTime)
    (hfail : ∀ i < retries, attemptFailed (oracle i) = true) :
    (generate_content prompt oracle retries delay now).1.text =
      (if strContains "post" (pyLower prompt)
       then postTemplatePre ++ fmt now ++ postTemplateSuf
       else commentTemplatePre ++ fmt now ++ commentTemplateSuf) ∧
    (generate_content prompt oracle retries delay now).1.origin = Origin.Fallback := by
  have hnone : (genLoop oracle delay 0 retries).1 = none := by
    rw [genLoop_fst_none_iff]
    intro j hj
    simpa using hfail j hj
  have hres := generate_content_of_none prompt oracle retries delay now hnone
  rw [hres]
  refine ⟨?_, rfl⟩
  by_cases hp : strContains "post" (pyLower prompt) = true
  · simp [hp, generate_fallback_content]
  · simp only [Bool.not_eq_true] at hp
    simp [hp, generate_fallback_content]

/-- Claim C7 witness: a comment request whose prompt mentions the word
`post` is classified as a post request and receives the post template. -/
theorem C7_fallback_classification_witness :
    (generate_content "Write a comment about this post" (fun _ => AttemptOutcome.err) 2 5
      ⟨2024, 1, 2, 3, 4, 5⟩).1.text =
      (if strContains "post" (pyLower "Write a comment about this post")
       then postTemplatePre ++ fmt ⟨2024, 1, 2, 3, 4, 5⟩ ++ postTemplateSuf
       else commentTemplatePre ++ fmt ⟨2024, 1, 2, 3, 4, 5⟩ ++ commentTemplateSuf) ∧
    (generate_content "Write a comment about this post" (fun _ => AttemptOutcome.err) 2 5
      ⟨2024, 1, 2, 3, 4, 5⟩).1.origin = Origin.Fallback :=
  C7_fallback_classification "Write a comment about this post" (fun _ => AttemptOutcome.err)
    2 5 ⟨2024, 1, 2, 3, 4, 5⟩ (by decide)

/-- Claim C4: the contextual selector lower-cases the hint and scans the
table in the fixed order learn, help, project, returning the response of
the first keyword contained in the lower-cased hint and the timestamped
default template when none matches; in particular the hint about needing
help with a project gets the help response, and a hint matching no keyword
gets the default. -/
theorem C4_contextual_selector (hint : String) (now : DateTime) :
    generate_contextual_comment hint now =
      (if strContains "learn" (pyLower hint) then learnResponse
       else if strContains "help" (pyLower hint) then helpResponse
       else if strContains "project" (pyLower hint) then projectResponse
       else defaultResponsePre ++ fmt now ++ defaultResponseSuf) ∧
    generate_contextual_comment "I need help with my project" now = helpResponse ∧
    generate_contextual_comment "Random topic" now =
      defaultResponsePre ++ fmt now ++ defaultResponseSuf := by
  refine ⟨contextual_characterization hint now, ?_, ?_⟩
  · rw [contextual_characterization]
    have h1 : strContains "learn" (pyLower "I need help with my project") = false := by decide
    have h2 : strContains "help" (pyLower "I need help with my project") = true := by decide
    rw [h1, h2]
    simp
  · rw [contextual_characterization]
    have h1 : strContains "learn" (pyLower "Random topic") = false := by decide
    have h2 : strContains "help" (pyLower "Random topic") = false := by decide
    have h3 : strContains "project" (pyLower "Random topic") = false := by decide
    rw [h1, h2, h3]
    simp

/-- Claim C8: the post fallback text is non-empty, contains the current
timestamp, equals a fixed template around that timestamp, and the
timestamp is rendered as `YYYY-MM-DD HH:MM:SS`. -/
theorem C8_post_fallback_timestamp (now : DateTime) :
    generate_fallback_content "post" none now ≠ "" ∧
    strContains (fmt now) (generate_fallback_content "post" none now) = true ∧
    generate_fallback_content "post" none now =
      postTemplatePre ++ fmt now ++ postTemplateSuf ∧
    isTimestampFormat (fmt now) = true := by
  have heq : generate_fallback_content "post" none now =
      postTemplatePre ++ fmt now ++ postTemplateSuf := by
    simp [generate_fallback_content]
  refine ⟨?_, ?_, heq, fmt_isTimestampFormat now⟩
  · rw [heq]; exact post_fallback_ne_empty now
  · rw [heq, strContains]
    have hdata : (postTemplatePre ++ fmt now ++ postTemplateSuf).data =
        postTemplatePre.data ++ ((fmt now).data ++ postTemplateSuf.data) := by
      rw [data_append, data_append, List.append_assoc]
    rw [hdata]
    exact subOf_sandwich (fmt now).data postTemplatePre.data postTemplateSuf.data

/-- Claim C9: the comment fallback with the hint `help me please` is
independent of the call time (the matched help response carries no
timestamp at all), and contextual selection is deterministic: equal hint
and equal time give equal output. -/
theorem C9_fallback_deterministic :
    (∀ t1 t2 : DateTime,
      generate_fallback_content "comment" (some "help me please") t1 =
        generate_fallback_content "comment" (some "help me please") t2) ∧
    (∀ (hint : String) (t1 t2 : DateTime), t1 = t2 →
      generate_fallback_content "comment" (some hint) t1 =
        generate_fallback_content "comment" (some hint) t2) := by
  constructor
  · intro t1 t2
    have key : ∀ t : DateTime,
        generate_fallback_content "comment" (some "help me please") t = helpResponse := by
      intro t
      have hne : ("comment" : String) = "post" → False := by decide
      simp only [generate_fallback_content, if_neg hne]
      have hse : ("help me please" : String) = "" → False := by decide
      rw [if_neg hse]
      rw [contextual_characterization]
      have h1 : strContains "learn" (pyLower "help me please") = false := by decide
      have h2 : strContains "help" (pyLower "help me please") = true := by decide
      rw [h1, h2]
      simp
    rw [key t1, key t2]
  · intro hint t1 t2 h
    rw [h]

/-- Claim C9 witness: determinism applied at a concrete hint and time. -/
theorem C9_fallback_deterministic_witness :
    generate_fallback_content "comment" (some "Random topic") ⟨2024, 1, 2, 3, 4, 5⟩ =
      generate_fallback_content "comment" (some "Random topic") ⟨2024, 1, 2, 3, 4, 5⟩ :=
  C9_fallback_deterministic.2 "Random topic" ⟨2024, 1, 2, 3, 4, 5⟩ ⟨2024, 1, 2, 3, 4, 5⟩ rfl

/-- Claim C2 counterexample: two unsaved candidate posts, generation
succeeding, the reply call failing on the first post.  The run produces
only the aborting failure event: the second post is never attempted,
contradicting per-item failure isolation (the `try`/`except` of
`create_comments` wraps the whole loop, not one iteration). -/
theorem C2_counterexample :
    create_comments [⟨"first", false⟩, ⟨"second", false⟩]
      (fun _ _ => AttemptOutcome.ok "hello") (fun i => i == 0) 3 5 ⟨2024, 1, 2, 3, 4, 5⟩ =
      [CommentEvent.failed 0] := by
  decide

/-- Claim C2 as amended: when the reply call for a candidate post raises,
the exception escapes the loop to the handler wrapping the whole
operation, so the remaining candidate posts are not attempted; the
function still returns normally (the failure is only logged), whatever
posts remained. -/
theorem C2_reply_failure_aborts_batch (p : CPost) (rest : List CPost) (i : Nat)
    (gen : Nat → Nat → AttemptOutcome) (replyFails : Nat → Bool)
    (retries delay : Nat) (now : DateTime)
    (hs : p.saved = false) (hrf : replyFails i = true) :
    ccLoop gen replyFails retries delay now (p :: rest) i = [CommentEvent.failed i] := by
  simp [ccLoop, hs, hrf]

/-- Claim C2 amended witness: the batch result is the single failure event
even with another unsaved post waiting. -/
theorem C2_reply_failure_aborts_batch_witness :
    ccLoop (fun _ _ => AttemptOutcome.ok "hello") (fun i => i == 0) 3 5 ⟨2024, 1, 2, 3, 4, 5⟩
      [⟨"first", false⟩, ⟨"second", false⟩] 0 = [CommentEvent.failed 0] :=
  C2_reply_failure_aborts_batch ⟨"first", false⟩ [⟨"second", false⟩] 0
    (fun _ _ => AttemptOutcome.ok "hello") (fun i => i == 0) 3 5 ⟨2024, 1, 2, 3, 4, 5⟩
    rfl rfl

/-- Claim C10 counterexample: `generate_content` can return text
containing the guard string, namely when the remote API itself returns it:
then the guard in `create_comments` fires and the contextual selector is
invoked with the post title, so the guarded branch is reachable. -/
theorem C10_counterexample :
    strContains unableMarker
      ((generate_content (commentPromptPre ++ "hi")
        (fun _ => AttemptOutcome.ok "Unable to generate content") 3 5
        ⟨2024, 1, 2, 3, 4, 5⟩).1.text) = true ∧
    create_comments [⟨"hi", false⟩] (fun _ _ => AttemptOutcome.ok "Unable to generate content")
      (fun _ => false) 3 5 ⟨2024, 1, 2, 3, 4, 5⟩ =
      [CommentEvent.replied 0 "hi"
        (generate_fallback_content "comment" (some "hi") ⟨2024, 1, 2, 3, 4, 5⟩) true] := by
  refine ⟨by decide, by decide⟩

/-- Claim C10 as amended: on the remote-exhaustion path the guard never
fires: the fallback produced inside `generate_content` for the comment
prompt is the post template (the prompt contains `post`), which never
contains the guard string, so the published comment is that
title-independent fallback and the contextual selector is not invoked. -/
theorem C10_guard_unreachable_on_exhaustion (title : String)
    (gen : Nat → Nat → AttemptOutcome) (replyF : Nat → Bool)
    (retries delay : Nat) (now : DateTime)
    (hfail : ∀ i < retries, attemptFailed (gen 0 i) = true) (hrf : replyF 0 = false) :
    create_comments [⟨title, false⟩] gen replyF retries delay now =
      [CommentEvent.replied 0 title (postTemplatePre ++ fmt now ++ postTemplateSuf) false] := by
  have hnone : (genLoop (gen 0) delay 0 retries).1 = none := by
    rw [genLoop_fst_none_iff]
    intro j hj
    simpa using hfail j hj
  have hres := generate_content_of_none (commentPromptPre ++ title) (gen 0) retries delay now
    hnone
  have htext : (generate_content (commentPromptPre ++ title) (gen 0) retries delay now).1.text =
      postTemplatePre ++ fmt now ++ postTemplateSuf := by
    rw [hres]
    rw [prompt_contains_post title]
    simp [generate_fallback_content]
  have hguard : strContains unableMarker
      ((generate_content (commentPromptPre ++ title) (gen 0) retries delay now).1.text) =
      false := by
    rw [htext]
    exact marker_not_in_post_fallback now
  simp only [create_comments, ccLoop, Bool.false_eq_true, if_false, hguard, htext, hrf]
  rw [marker_not_in_post_fallback now]
  simp

/-- Claim C10 amended witness: a one-post batch with every remote attempt
raising publishes the post-template fallback with the guard not fired. -/
theorem C10_guard_unreachable_on_exhaustion_witness :
    create_comments [⟨"hi", false⟩] (fun _ _ => AttemptOutcome.err) (fun _ => false) 2 5
      ⟨2024, 1, 2, 3, 4, 5⟩ =
      [CommentEvent.replied 0 "hi"
        (postTemplatePre ++ fmt ⟨2024, 1, 2, 3, 4, 5⟩ ++ postTemplateSuf) false] :=
  C10_guard_unreachable_on_exhaustion "hi" (fun _ _ => AttemptOutcome.err) (fun _ => false)
    2 5 ⟨2024, 1, 2, 3, 4, 5⟩ (by decide) rfl
